import Mathlib

/-!
Verification of the MOUSE cost-estimation engine (`src/cost/`).

Python floats are modelled as exact rationals (`ℚ`) where the code only uses
field operations, and as real numbers (`ℝ`) where the code uses transcendental
functions (`pow` with real exponents, `exp`, `log`, `log2`).  A pandas `NaN`
cell is modelled as `Option.none`; a raised Python exception (`KeyError`,
`IndexError`, `ZeroDivisionError`, `ValueError`, `NameError`) is modelled by
the enclosing function returning `Option.none`.
-/

/-! ## `code_of_account_processing.remove_irrelevant_account`

A catalog row's conditional-inclusion fields.  Parameter values are modelled
as strings; only presence and (decidable) equality of values matter to the
code.  `none` in an `Option` field models a `NaN` cell. -/

structure OptRow where
  account : String
  optionalVariable : Option String
  optionalValue : String
  secOptionalVariable : Option String
  secOptionalValue : String
deriving DecidableEq, Repr

/-- The design-parameter set, as an association list (first binding wins,
matching a Python dict's unique keys). -/
def lookupParam (params : List (String × String)) (k : String) : Option String :=
  (params.find? (fun p => p.1 == k)).map (fun p => p.2)

/-- The `Sec Optional Variable` check of `remove_irrelevant_account`
(lines 20-26 of `code_of_account_processing.py`): the row is marked for
dropping unless the named parameter exists and equals `Sec Optional Value`. -/
def sec_pair_dropped (params : List (String × String)) (r : OptRow) : Bool :=
  match r.secOptionalVariable with
  | some name => !(lookupParam params name == some r.secOptionalValue)
  | none => false

/-- One iteration of the row loop of `remove_irrelevant_account`
(lines 9-26): the primary `Optional Variable` pair is checked first; if it is
present and fails (parameter absent or unequal) the row is dropped and the
secondary check is skipped (`continue`); otherwise the secondary pair is
checked the same way. -/
def row_dropped (params : List (String × String)) (r : OptRow) : Bool :=
  match r.optionalVariable with
  | some name =>
      if lookupParam params name == some r.optionalValue then
        sec_pair_dropped params r
      else
        true
  | none => sec_pair_dropped params r

/-- `remove_irrelevant_account` (lines 4-31): collect the indices of dropped
rows, then drop them; equivalently, keep exactly the rows the loop did not
mark, in order. -/
def remove_irrelevant_account (df : List OptRow) (params : List (String × String)) :
    List OptRow :=
  df.filter (fun r => !(row_dropped params r))

/-! ## `non_direct_cost.validate_tax_credit_params` and the entry point -/

/-- Python's `key in params.keys()`. -/
def hasKey (params : List (String × String)) (k : String) : Bool :=
  params.any (fun p => p.1 == k)

/-- `validate_tax_credit_params` (`non_direct_cost.py` lines 7-23): raises
`ValueError` (modelled as `none`) exactly when both `ITC credit level` and
`PTC credit value` are present in the parameter set. -/
def validate_tax_credit_params (params : List (String × String)) : Option Unit :=
  if hasKey params "ITC credit level" && hasKey params "PTC credit value" then
    none
  else
    some ()

/-- `bottom_up_cost_estimate` (`cost_estimation.py` lines 272-322): the very
first statement validates the tax-credit parameters; every later stage
(escalation, account filtering, scaling, rollup, aggregation, LCOE,
sample averaging) runs only if validation passed.  The downstream stages are
abstracted as a single `pipeline` function, since the claims checked here
concern only the validate-first control flow. -/
def bottom_up_cost_estimate {α : Type} (pipeline : List (String × String) → Option α)
    (params : List (String × String)) : Option α :=
  match validate_tax_credit_params params with
  | none => none
  | some _ => pipeline params

/-! ## Theorems for the account filter and the tax-credit validation -/

/-- A row survives the filter iff every present optional pair both names an
existing parameter and matches its stated value. -/
theorem row_dropped_eq_false_iff (params : List (String × String)) (r : OptRow) :
    row_dropped params r = false ↔
      ((∀ n, r.optionalVariable = some n → lookupParam params n = some r.optionalValue) ∧
       (∀ n, r.secOptionalVariable = some n → lookupParam params n = some r.secOptionalValue)) := by
  unfold row_dropped sec_pair_dropped
  cases hp : r.optionalVariable with
  | none =>
      cases hs : r.secOptionalVariable with
      | none => simp
      | some n2 => simp
  | some n1 =>
      cases hs : r.secOptionalVariable with
      | none => simp
      | some n2 =>
          by_cases h1 : lookupParam params n1 = some r.optionalValue
          · simp [h1]
          · simp [h1]

/-- C10: `remove_irrelevant_account` drops a row when a present optional pair
names a parameter that is absent from the design-parameter set, just as when
the parameter is present but unequal; a row with both optional-variable
fields missing is always kept; and a row is kept exactly when every present
optional pair names a parameter that exists and equals its stated value. -/
theorem remove_irrelevant_account_keeps_iff (params : List (String × String)) (r : OptRow) :
    (∀ df, r ∈ remove_irrelevant_account df params ↔
      (r ∈ df ∧
       (∀ n, r.optionalVariable = some n → lookupParam params n = some r.optionalValue) ∧
       (∀ n, r.secOptionalVariable = some n → lookupParam params n = some r.secOptionalValue)))
    ∧ (r.optionalVariable = none → r.secOptionalVariable = none →
        row_dropped params r = false)
    ∧ (∀ n, r.optionalVariable = some n → lookupParam params n = none →
        row_dropped params r = true) := by
  refine ⟨fun df => ?_, fun h1 h2 => ?_, fun n hn habs => ?_⟩
  · rw [remove_irrelevant_account, List.mem_filter]
    rw [Bool.not_eq_true', row_dropped_eq_false_iff]
  · rw [row_dropped_eq_false_iff]
    constructor
    · intro n hn; rw [h1] at hn; exact absurd hn (by simp)
    · intro n hn; rw [h2] at hn; exact absurd hn (by simp)
  · unfold row_dropped
    rw [hn]
    simp [habs]

/-- Witness for C10 at concrete inputs: a row whose optional variable names a
parameter entirely absent from the set is dropped. -/
theorem remove_irrelevant_account_keeps_iff_witness :
    row_dropped [("coolant", "helium")]
      (OptRow.mk "213" (some "reflector") "BeO" none "") = true :=
  (remove_irrelevant_account_keeps_iff [("coolant", "helium")]
      (OptRow.mk "213" (some "reflector") "BeO" none "")).2.2
    "reflector" rfl (by decide)

/-- C4: if both `ITC credit level` and `PTC credit value` are present, the
entry point returns the validation error before running any downstream stage
(whatever that stage would compute, no cost table is produced); if at most
one of the two keys is present, the validation raises nothing. -/
theorem tax_credit_mutual_exclusion (params : List (String × String)) :
    (hasKey params "ITC credit level" = true → hasKey params "PTC credit value" = true →
      ∀ (α : Type) (pipeline : List (String × String) → Option α),
        bottom_up_cost_estimate pipeline params = none)
    ∧ ((hasKey params "ITC credit level" = false ∨ hasKey params "PTC credit value" = false) →
        validate_tax_credit_params params = some ()) := by
  constructor
  · intro hi hp α pipeline
    unfold bottom_up_cost_estimate validate_tax_credit_params
    rw [hi, hp]
    simp
  · intro h
    unfold validate_tax_credit_params
    rcases h with h | h <;> rw [h] <;> simp

/-- Witness for C4 at concrete inputs: with both keys present the entry point
yields no table even for an always-succeeding pipeline, and with only the ITC
key present validation succeeds. -/
theorem tax_credit_mutual_exclusion_witness :
    bottom_up_cost_estimate (fun _ => some (0 : Nat))
      [("ITC credit level", "0.3"), ("PTC credit value", "15")] = none
    ∧ validate_tax_credit_params [("ITC credit level", "0.3")] = some () :=
  ⟨(tax_credit_mutual_exclusion [("ITC credit level", "0.3"), ("PTC credit value", "15")]).1
      (by decide) (by decide) Nat (fun _ => some 0),
   (tax_credit_mutual_exclusion [("ITC credit level", "0.3")]).2 (Or.inr (by decide))⟩

/-! ## `cost_estimation.learning_rate_multiplier` -/

/-- `learning_rate_multiplier` (`cost_estimation.py` lines 214-215):
`pow(1-learning_rate, np.log2(min(100, number_of_units)))`, with Python float
`pow` modelled as the real power and `np.log2` as the base-2 logarithm. -/
noncomputable def learning_rate_multiplier (learning_rate number_of_units : ℝ) : ℝ :=
  (1 - learning_rate) ^ Real.logb 2 (min 100 number_of_units)

/-- C6: the learning-curve multiplier is non-increasing in the number of
units for every rate in `[0, 1)` and units `≥ 1`, is constant for `≥ 100`
units, and equals `1` for every number of units when the rate is `0`. -/
theorem learning_rate_multiplier_props :
    (∀ rate n₁ n₂ : ℝ, 0 ≤ rate → rate < 1 → 1 ≤ n₁ → n₁ ≤ n₂ →
        learning_rate_multiplier rate n₂ ≤ learning_rate_multiplier rate n₁)
    ∧ (∀ rate n : ℝ, 100 ≤ n →
        learning_rate_multiplier rate n = learning_rate_multiplier rate 100)
    ∧ (∀ n : ℝ, 1 ≤ n → learning_rate_multiplier 0 n = 1) := by
  refine ⟨fun rate n₁ n₂ h0 h1 hn1 hn12 => ?_, fun rate n hn => ?_, fun n _ => ?_⟩
  · unfold learning_rate_multiplier
    apply Real.rpow_le_rpow_of_exponent_ge (by linarith) (by linarith)
    apply Real.logb_le_logb_of_le (by norm_num)
    · exact lt_min (by norm_num) (by linarith)
    · exact min_le_min le_rfl hn12
  · unfold learning_rate_multiplier
    rw [min_eq_left hn, min_self]
  · unfold learning_rate_multiplier
    rw [sub_zero, Real.one_rpow]

/-- Witness for C6 at concrete inputs: rate `1/2` between `1` and `2` units,
plateau at `150` units, and rate `0` at `3` units. -/
theorem learning_rate_multiplier_props_witness :
    learning_rate_multiplier (1/2) 2 ≤ learning_rate_multiplier (1/2) 1
    ∧ learning_rate_multiplier (1/2) 150 = learning_rate_multiplier (1/2) 100
    ∧ learning_rate_multiplier 0 3 = 1 :=
  ⟨learning_rate_multiplier_props.1 (1/2) 1 2 (by norm_num) (by norm_num)
      (by norm_num) (by norm_num),
   learning_rate_multiplier_props.2.1 (1/2) 150 (by norm_num),
   learning_rate_multiplier_props.2.2 3 (by norm_num)⟩

/-! ## Baseline LCOE (`non_direct_cost.energy_cost_levelized`) -/

/-- The baseline LCOE computation of `energy_cost_levelized`
(`non_direct_cost.py` lines 372-396).  `capCost` is the value the code reads
from the `TCI` row and `annCost` the sum of the Account 70 and Account 80
rows.  For `i` in `0 .. LevelizationPeriod`, year `0` contributes the full
capital cost and no electricity, later years contribute the annual cost and
`PowerMWe * CapacityFactor * 365 * 24` MWh, each discounted by
`(1+rate)^i`; the result is the cost sum over the electricity sum.  The two
`none` cases model Python `ZeroDivisionError`: a zero discount base with a
year `≥ 1` in range, and a zero discounted-electricity total. -/
def energy_cost_levelized_baseline (levelizationPeriod : ℕ)
    (interestRate powerMWe capacityFactor capCost annCost : ℚ) : Option ℚ :=
  if 1 + interestRate = 0 ∧ 1 ≤ levelizationPeriod then none
  else
    let sums := (List.range (1 + levelizationPeriod)).foldl
      (fun (acc : ℚ × ℚ) i =>
        let capCostPerYear := if i = 0 then capCost else 0
        let annualCost := if i = 0 then 0 else annCost
        let elecGen := if i = 0 then 0 else powerMWe * capacityFactor * 365 * 24
        (acc.1 + (capCostPerYear + annualCost) / (1 + interestRate) ^ i,
         acc.2 + elecGen / (1 + interestRate) ^ i))
      (0, 0)
    if sums.2 = 0 then none else some (sums.1 / sums.2)

/-- C8: with interest rate `0.07`, levelization period `2`, power `1` MWe,
capacity factor `1`, TCI `100` and zero total annual cost, the baseline LCOE
is `100 / (8760/1.07 + 8760/1.07^2)`: year 0 contributes the undiscounted
TCI and no electricity, and each later year contributes `8760` MWh
discounted at the interest rate. -/
theorem lcoe_capital_only_scenario :
    energy_cost_levelized_baseline 2 (7/100) 1 1 100 0 =
      some (100 / (8760 / (107/100) + 8760 / (107/100) ^ 2)) := by
  unfold energy_cost_levelized_baseline
  norm_num [List.range_succ]

/-! ## `non_direct_cost._crf` and the annualized fuel cost (Account 82) -/

/-- `_crf` (`non_direct_cost.py` lines 26-37) applied to a scalar period, as
in the Account 82 computation: `rate * (1+rate)^period / ((1+rate)^period - 1)`.
When the denominator is exactly zero, Python float division raises
`ZeroDivisionError` (modelled as `none`); the `inf`-to-`0` replacement on
line 36 applies only when `factor` is an array of size greater than one,
never to this scalar result. -/
noncomputable def _crf (rate period : ℝ) : Option ℝ :=
  let numer := rate * (1 + rate) ^ period
  let denum := (1 + rate) ^ period - 1
  if denum = 0 then none else some (numer / denum)

/-- The Account 82 computation of `calculate_accounts_31_32_75_82_cost`
(`non_direct_cost.py` lines 53-54 and 82-84): the refueling period in years is
`(Fuel Lifetime + Refueling Period + Startup Duration after Refueling) / 365`
and the annualized fuel cost stored as Account 82 is the Account 25 lump fuel
cost times the capital recovery factor at that period. -/
noncomputable def annualized_fuel_cost (interestRate fuelLifetime refuelingPeriod
    startupDuration lumpFuelCost : ℝ) : Option ℝ :=
  let refueling_period_yr := (fuelLifetime + refuelingPeriod + startupDuration) / 365
  (_crf interestRate refueling_period_yr).map (fun f => lumpFuelCost * f)

/-- C2 fails as stated: at period `0` the scalar capital-recovery-factor
computation does not return `0` — the denominator `(1+rate)^0 - 1` is exactly
zero, so the division raises (modelled `none`), already at rate `0.07`. -/
theorem crf_zero_period_counterexample : ¬ _crf (7/100) 0 = some 0 := by
  simp [_crf, Real.rpow_zero]

/-- C2 amended: for every rate the scalar CRF at period `0` raises rather
than returning `0`; whenever `(1+rate)^period ≠ 1` (in particular for every
`period > 0` and nonzero rate `> -1`) it returns the closed-form annuity
factor `rate*(1+rate)^period / ((1+rate)^period - 1)`; and whenever the CRF
succeeds, the Account 82 annualized fuel cost equals the Account 25 cost
times that factor at the refueling period in years. -/
theorem crf_closed_form_and_account_82 :
    (∀ rate : ℝ, _crf rate 0 = none)
    ∧ (∀ rate period : ℝ, (1 + rate) ^ period ≠ 1 →
        _crf rate period =
          some (rate * (1 + rate) ^ period / ((1 + rate) ^ period - 1)))
    ∧ (∀ interestRate fuelLifetime refuelingPeriod startupDuration lumpFuelCost c : ℝ,
        _crf interestRate
            ((fuelLifetime + refuelingPeriod + startupDuration) / 365) = some c →
        annualized_fuel_cost interestRate fuelLifetime refuelingPeriod
            startupDuration lumpFuelCost = some (lumpFuelCost * c)) := by
  refine ⟨fun rate => ?_, fun rate period h => ?_, fun ir fl rp sd lump c h => ?_⟩
  · simp [_crf, Real.rpow_zero]
  · simp [_crf, sub_ne_zero.mpr h]
  · simp only [annualized_fuel_cost, h, Option.map_some']

/-- Witness for the amended C2 at concrete inputs: rate `1`, period `1`,
and a fuel lifetime of one year with lump fuel cost `2`. -/
theorem crf_closed_form_and_account_82_witness :
    _crf 1 1 = some (1 * (1 + 1) ^ (1:ℝ) / ((1 + 1) ^ (1:ℝ) - 1))
    ∧ annualized_fuel_cost 1 365 0 0 2 = some (2 * 2) := by
  have hne : ((1:ℝ) + 1) ^ (1:ℝ) ≠ 1 := by rw [Real.rpow_one]; norm_num
  have hp : ((365:ℝ) + 0 + 0) / 365 = 1 := by norm_num
  have h1 : _crf 1 ((365 + 0 + 0 : ℝ) / 365) = some 2 := by
    rw [hp, crf_closed_form_and_account_82.2.1 1 1 hne, Real.rpow_one]
    norm_num
  exact ⟨crf_closed_form_and_account_82.2.1 1 1 hne,
         crf_closed_form_and_account_82.2.2 1 365 0 0 2 2 h1⟩

/-! ## `non_direct_cost.calculate_interest_cost` -/

/-- `calculate_interest_cost` (`non_direct_cost.py` lines 140-147): interest
during construction, `D/E * OCC * (0.5*B/C - 1)` with
`B = 1 + exp(ln(1+r) * months/12)` and
`C = (ln(1+r) * (months/12) / 3.14)^2 + 1`.  The code divides by the literal
`3.14`, not by the mathematical constant pi. -/
noncomputable def calculate_interest_cost (interestRate constructionDuration
    debtToEquityRatio OCC : ℝ) : ℝ :=
  let B := 1 + Real.exp (Real.log (1 + interestRate) * constructionDuration / 12)
  let C := (Real.log (1 + interestRate) * (constructionDuration / 12) / 3.14) ^ 2 + 1
  debtToEquityRatio * OCC * (0.5 * B / C - 1)

/-- The interest-during-construction formula exactly as claim C5 states it,
with the mathematical constant `π` in place of the code's literal `3.14`,
for comparison against `calculate_interest_cost`. -/
noncomputable def interest_cost_claimed (interestRate constructionDuration
    debtToEquityRatio OCC : ℝ) : ℝ :=
  let B := 1 + Real.exp (Real.log (1 + interestRate) * constructionDuration / 12)
  let C := (Real.log (1 + interestRate) * (constructionDuration / 12) / Real.pi) ^ 2 + 1
  debtToEquityRatio * OCC * (0.5 * B / C - 1)

/-- C5 fails as stated: with interest rate `1`, a 12-month construction
duration, debt-to-equity ratio `1` and overnight cost `1`, the code's value
(dividing by `3.14`) differs from the claimed formula (dividing by `π`). -/
theorem interest_cost_pi_counterexample :
    calculate_interest_cost 1 12 1 1 ≠ interest_cost_claimed 1 12 1 1 := by
  have hπ : (3.14:ℝ) < Real.pi := Real.pi_gt_d2
  have hlog : (0:ℝ) < Real.log (1 + 1) := Real.log_pos (by norm_num)
  have hx : (0:ℝ) < Real.log (1 + 1) * ((12:ℝ) / 12) := by
    rw [show ((12:ℝ) / 12) = 1 by norm_num, mul_one]; exact hlog
  have hq : Real.log (1 + 1) * ((12:ℝ) / 12) / Real.pi
      < Real.log (1 + 1) * ((12:ℝ) / 12) / 3.14 :=
    div_lt_div_of_pos_left hx (by norm_num) hπ
  have h0 : (0:ℝ) ≤ Real.log (1 + 1) * ((12:ℝ) / 12) / Real.pi := by positivity
  have hsq : (Real.log (1 + 1) * ((12:ℝ) / 12) / Real.pi) ^ 2
      < (Real.log (1 + 1) * ((12:ℝ) / 12) / 3.14) ^ 2 := by nlinarith [hq, h0]
  have hB : (0:ℝ) < 0.5 * (1 + Real.exp (Real.log (1 + 1) * 12 / 12)) := by positivity
  have hCπ : (0:ℝ) < (Real.log (1 + 1) * ((12:ℝ) / 12) / Real.pi) ^ 2 + 1 := by positivity
  have hdiv := div_lt_div_of_pos_left hB hCπ (by linarith :
      (Real.log (1 + 1) * ((12:ℝ) / 12) / Real.pi) ^ 2 + 1
        < (Real.log (1 + 1) * ((12:ℝ) / 12) / 3.14) ^ 2 + 1)
  unfold calculate_interest_cost interest_cost_claimed
  apply ne_of_lt
  show 1 * 1 * (0.5 * (1 + Real.exp (Real.log (1 + 1) * 12 / 12))
      / ((Real.log (1 + 1) * ((12:ℝ) / 12) / 3.14) ^ 2 + 1) - 1)
    < 1 * 1 * (0.5 * (1 + Real.exp (Real.log (1 + 1) * 12 / 12))
      / ((Real.log (1 + 1) * ((12:ℝ) / 12) / Real.pi) ^ 2 + 1) - 1)
  simp only [one_mul]
  exact sub_lt_sub_right hdiv 1

/-! ## `non_direct_cost.calculate_high_level_capital_costs`

The cost table as seen by the capital aggregator: an `Account` cell that is
either a numeric id (a float, modelled as an exact rational) or one of the
string ids appended during aggregation, plus the FOAK and NOAK
estimated-cost cells (`none` models `NaN`). -/

inductive Acct where
  | num (q : ℚ)
  | str (s : String)
deriving DecidableEq, Repr

structure CostRow where
  account : Acct
  costF : Option ℝ
  costN : Option ℝ

/-- The two estimated-cost columns the aggregation loop iterates over. -/
inductive Col where
  | F
  | N
deriving DecidableEq, Repr

def Col.other : Col → Col
  | Col.F => Col.N
  | Col.N => Col.F

def getCol : Col → CostRow → Option ℝ
  | Col.F, r => r.costF
  | Col.N, r => r.costN

def setCol : Col → CostRow → Option ℝ → CostRow
  | Col.F, r, v => { r with costF := v }
  | Col.N, r, v => { r with costN := v }

/-- Membership of an account cell in a list of numeric account ids
(`df['Account'].isin([...])`); string accounts never match. -/
def acct_in (accts : List ℚ) : Acct → Bool
  | Acct.num q => accts.contains q
  | Acct.str _ => false

/-- `df[df['Account'].isin(accts)][col].sum()`: sum the column over the rows
whose account id is in the list, skipping `NaN` cells (pandas `skipna`). -/
def sum_accounts (accts : List ℚ) (col : CostRow → Option ℝ) : List CostRow → ℝ
  | [] => 0
  | r :: rs => (if acct_in accts r.account then (col r).getD 0 else 0) +
      sum_accounts accts col rs

/-- `df.loc[df['Account'] == a, col].values[0]`: the column value of the
first row with the given account; outer `none` models the `IndexError` when
no row matches, the inner option the cell itself (possibly `NaN`). -/
def first_value (col : CostRow → Option ℝ) (a : Acct) (df : List CostRow) :
    Option (Option ℝ) :=
  (df.find? (fun r => r.account == a)).map col

/-- One row of a `df.loc[df['Account'] == a, col] = v` write: the value is
written into the chosen column when the row's account matches. -/
def write_step (a : Acct) (col : Col) (v : Option ℝ) (r : CostRow) : CostRow :=
  if r.account == a then setCol col r v else r

/-- `df.loc[df['Account'] == a, col] = v`: write the value into the chosen
column of every row whose account matches. -/
def set_all (a : Acct) (col : Col) (v : Option ℝ) (df : List CostRow) : List CostRow :=
  df.map (write_step a col v)

/-- One column pass of `calculate_high_level_capital_costs`
(`non_direct_cost.py` lines 173-182): sum accounts 10-50 into the overnight
capital cost, fill the `OCC` rows, subtract the Account 25 fuel cost for the
`OCC excl. fuel` rows, and store the interest during construction as
Account 62.  `none` models the `ZeroDivisionError` on a zero plant capacity
and the `IndexError` when no Account 25 row exists. -/
noncomputable def capital_pass (col : Col)
    (power_kWe interestRate constructionDuration debtToEquityRatio : ℝ)
    (df : List CostRow) : Option (List CostRow) :=
  let occ_cost := sum_accounts [10, 20, 30, 40, 50] (getCol col) df
  let df1 := set_all (Acct.str "OCC") col (some occ_cost) df
  if power_kWe = 0 then none
  else
    let df2 := set_all (Acct.str "OCC per kW") col (some (occ_cost / power_kWe)) df1
    (first_value (getCol col) (Acct.num 25) df2).map (fun fuel25 =>
      let occ_excl := fuel25.map (fun x => occ_cost - x)
      let df3 := set_all (Acct.str "OCC excl. fuel") col occ_excl df2
      let df4 := set_all (Acct.str "OCC excl. fuel per kW") col
        (occ_excl.map (fun x => x / power_kWe)) df3
      set_all (Acct.num 62) col
        (some (calculate_interest_cost interestRate constructionDuration
          debtToEquityRatio occ_cost)) df4)

/-- The four summary rows appended by `calculate_high_level_capital_costs`
(`df._append`, lines 165-168), with empty cost cells. -/
def summary_rows : List CostRow :=
  [⟨Acct.str "OCC", none, none⟩, ⟨Acct.str "OCC per kW", none, none⟩,
   ⟨Acct.str "OCC excl. fuel", none, none⟩,
   ⟨Acct.str "OCC excl. fuel per kW", none, none⟩]

/-- `calculate_high_level_capital_costs` (`non_direct_cost.py` lines
161-183): append the four summary rows (cost cells `NaN`), then run the
column pass for the FOAK column and then for the NOAK column, with
`power_kWe = 1000 * Power MWe`. -/
noncomputable def calculate_high_level_capital_costs (df : List CostRow)
    (powerMWe interestRate constructionDuration debtToEquityRatio : ℝ) :
    Option (List CostRow) :=
  let power_kWe := 1000 * powerMWe
  let appended := df ++ summary_rows
  (capital_pass Col.F power_kWe interestRate constructionDuration
      debtToEquityRatio appended).bind
    (capital_pass Col.N power_kWe interestRate constructionDuration debtToEquityRatio)

theorem setCol_account (c : Col) (r : CostRow) (v : Option ℝ) :
    (setCol c r v).account = r.account := by
  cases c <;> rfl

theorem getCol_setCol_other (c : Col) (r : CostRow) (v : Option ℝ) :
    getCol c.other (setCol c r v) = getCol c.other r := by
  cases c <;> rfl

theorem getCol_setCol_same (c : Col) (r : CostRow) (v : Option ℝ) :
    getCol c (setCol c r v) = v := by
  cases c <;> rfl

theorem write_step_of_ne (a : Acct) (c : Col) (v : Option ℝ) (x : CostRow)
    (h : x.account ≠ a) : write_step a c v x = x := by
  unfold write_step
  rw [if_neg]
  simp [h]

theorem write_step_of_eq (a : Acct) (c : Col) (v : Option ℝ) (x : CostRow)
    (h : x.account = a) : write_step a c v x = setCol c x v := by
  unfold write_step
  rw [if_pos]
  simp [h]

theorem write_step_account (a : Acct) (c : Col) (v : Option ℝ) (x : CostRow) :
    (write_step a c v x).account = x.account := by
  by_cases h : x.account = a
  · rw [write_step_of_eq a c v x h, setCol_account]
  · rw [write_step_of_ne a c v x h]

theorem write_step_getCol_other (a : Acct) (c : Col) (v : Option ℝ) (x : CostRow) :
    getCol c.other (write_step a c v x) = getCol c.other x := by
  by_cases h : x.account = a
  · rw [write_step_of_eq a c v x h, getCol_setCol_other]
  · rw [write_step_of_ne a c v x h]

/-- Summing a column is unchanged by a row transformation that preserves
accounts and that column. -/
theorem sum_accounts_map (accts : List ℚ) (c : Col) (g : CostRow → CostRow)
    (hacc : ∀ r, (g r).account = r.account)
    (hcol : ∀ r, getCol c (g r) = getCol c r) :
    ∀ df, sum_accounts accts (getCol c) (df.map g) = sum_accounts accts (getCol c) df := by
  intro df
  induction df with
  | nil => rfl
  | cons r rs ih =>
      simp only [List.map_cons, sum_accounts, hacc, hcol, ih]

theorem sum_accounts_append (accts : List ℚ) (col : CostRow → Option ℝ)
    (d e : List CostRow) :
    sum_accounts accts col (d ++ e) =
      sum_accounts accts col d + sum_accounts accts col e := by
  induction d with
  | nil =>
      show sum_accounts accts col e = sum_accounts accts col [] + sum_accounts accts col e
      rw [sum_accounts]
      ring
  | cons r rs ih =>
      show (if acct_in accts r.account then (col r).getD 0 else 0) +
            sum_accounts accts col (rs ++ e) = _
      rw [ih, sum_accounts]
      ring

/-- A successful column pass is a row-wise map that preserves every account
and the other cost column, and writes into every Account 62 row the interest
cost computed from the pass input's account 10-50 sum. -/
theorem capital_pass_repr (c : Col) (k ir cd de : ℝ) (d d₂ : List CostRow)
    (h : capital_pass c k ir cd de d = some d₂) :
    ∃ g : CostRow → CostRow, d₂ = d.map g
      ∧ (∀ r, (g r).account = r.account)
      ∧ (∀ r, getCol c.other (g r) = getCol c.other r)
      ∧ (∀ r, r.account = Acct.num 62 → getCol c (g r) =
          some (calculate_interest_cost ir cd de
            (sum_accounts [10, 20, 30, 40, 50] (getCol c) d))) := by
  simp only [capital_pass] at h
  by_cases hk : k = 0
  · rw [if_pos hk] at h
    cases h
  · rw [if_neg hk] at h
    rcases Option.map_eq_some'.mp h with ⟨fuel25, _, hd₂⟩
    subst hd₂
    refine ⟨fun r =>
      write_step (Acct.num 62) c
        (some (calculate_interest_cost ir cd de
          (sum_accounts [10, 20, 30, 40, 50] (getCol c) d)))
      (write_step (Acct.str "OCC excl. fuel per kW") c
        ((fuel25.map (fun y =>
          sum_accounts [10, 20, 30, 40, 50] (getCol c) d - y)).map (fun y => y / k))
      (write_step (Acct.str "OCC excl. fuel") c
        (fuel25.map (fun y => sum_accounts [10, 20, 30, 40, 50] (getCol c) d - y))
      (write_step (Acct.str "OCC per kW") c
        (some (sum_accounts [10, 20, 30, 40, 50] (getCol c) d / k))
      (write_step (Acct.str "OCC") c
        (some (sum_accounts [10, 20, 30, 40, 50] (getCol c) d))
      r)))), ?_, ?_, ?_, ?_⟩
    · simp only [set_all, List.map_map]
      rfl
    · intro r
      simp only [write_step_account]
    · intro r
      simp only [write_step_getCol_other]
    · intro r h62
      have hs : ∀ s : String, r.account ≠ Acct.str s := by
        intro s hc
        rw [h62] at hc
        cases hc
      beta_reduce
      rw [write_step_of_ne _ _ _ _ (hs "OCC"), write_step_of_ne _ _ _ _ (hs "OCC per kW"),
        write_step_of_ne _ _ _ _ (hs "OCC excl. fuel"),
        write_step_of_ne _ _ _ _ (hs "OCC excl. fuel per kW"),
        write_step_of_eq _ _ _ _ h62, getCol_setCol_same]

/-- C5 amended: the interest during construction stored as Account 62 (in
both cost columns) equals `D/E * OCC * (0.5*B/C - 1)` with
`B = 1 + exp(ln(1+r) * months/12)` and
`C = (ln(1+r) * (months/12) / 3.14)^2 + 1` — the divisor is the literal
`3.14` of the code, not the constant pi — where `OCC` is the sum of the
column over the accounts 10, 20, 30, 40 and 50 of the input table. -/
theorem account_62_stores_interest_cost
    (df df' : List CostRow) (powerMWe ir cd de : ℝ)
    (h : calculate_high_level_capital_costs df powerMWe ir cd de = some df') :
    ∀ r ∈ df', r.account = Acct.num 62 →
      r.costF = some (de * sum_accounts [10, 20, 30, 40, 50] (getCol Col.F) df *
          (0.5 * (1 + Real.exp (Real.log (1 + ir) * cd / 12)) /
            ((Real.log (1 + ir) * (cd / 12) / 3.14) ^ 2 + 1) - 1))
      ∧ r.costN = some (de * sum_accounts [10, 20, 30, 40, 50] (getCol Col.N) df *
          (0.5 * (1 + Real.exp (Real.log (1 + ir) * cd / 12)) /
            ((Real.log (1 + ir) * (cd / 12) / 3.14) ^ 2 + 1) - 1)) := by
  simp only [calculate_high_level_capital_costs] at h
  rcases Option.bind_eq_some.mp h with ⟨dfF, hF, hN⟩
  obtain ⟨gF, hdfF, hFacc, hFother, hF62⟩ := capital_pass_repr Col.F _ ir cd de _ _ hF
  obtain ⟨gN, hdfN, hNacc, hNother, hN62⟩ := capital_pass_repr Col.N _ ir cd de _ _ hN
  subst hdfN
  subst hdfF
  intro r hr h62
  rcases List.mem_map.mp hr with ⟨rF, hrF, rfl⟩
  rcases List.mem_map.mp hrF with ⟨r0, hr0, rfl⟩
  have haccF : (gF r0).account = Acct.num 62 := by
    rw [← hNacc (gF r0)]
    exact h62
  have hacc0 : r0.account = Acct.num 62 := by
    rw [← hFacc r0]
    exact haccF
  have hsum_extra : ∀ c : Col, sum_accounts [10, 20, 30, 40, 50] (getCol c)
      summary_rows = 0 := by
    intro c
    simp [summary_rows, sum_accounts, acct_in]
  have happ : ∀ c : Col, sum_accounts [10, 20, 30, 40, 50] (getCol c)
      (df ++ summary_rows) =
      sum_accounts [10, 20, 30, 40, 50] (getCol c) df := by
    intro c
    rw [sum_accounts_append, hsum_extra, add_zero]
  constructor
  · have h1 : getCol Col.F (gN (gF r0)) = getCol Col.F (gF r0) := hNother (gF r0)
    have h2 := hF62 r0 hacc0
    show getCol Col.F (gN (gF r0)) = _
    rw [h1, h2, happ Col.F]
    rfl
  · have h2 := hN62 (gF r0) haccF
    show getCol Col.N (gN (gF r0)) = _
    rw [h2]
    have hmapN : sum_accounts [10, 20, 30, 40, 50] (getCol Col.N)
        ((df ++ summary_rows).map gF) =
        sum_accounts [10, 20, 30, 40, 50] (getCol Col.N)
        (df ++ summary_rows) :=
      sum_accounts_map _ Col.N gF hFacc hFother _
    rw [hmapN, happ Col.N]
    rfl

/-- Witness for the amended C5 at a concrete two-row table (an Account 25
fuel row and an empty Account 62 row), unit capacity, rate `1`, a 12-month
construction and debt-to-equity ratio `1`. -/
theorem account_62_stores_interest_cost_witness :
    ∃ df', calculate_high_level_capital_costs
        [⟨Acct.num 25, some 1, some 1⟩, ⟨Acct.num 62, none, none⟩] 1 1 12 1 = some df' ∧
      ∀ r ∈ df', r.account = Acct.num 62 →
        r.costF = some (1 * sum_accounts [10, 20, 30, 40, 50] (getCol Col.F)
            [⟨Acct.num 25, some 1, some 1⟩, ⟨Acct.num 62, none, none⟩] *
            (0.5 * (1 + Real.exp (Real.log (1 + 1) * 12 / 12)) /
              ((Real.log (1 + 1) * (12 / 12) / 3.14) ^ 2 + 1) - 1))
        ∧ r.costN = some (1 * sum_accounts [10, 20, 30, 40, 50] (getCol Col.N)
            [⟨Acct.num 25, some 1, some 1⟩, ⟨Acct.num 62, none, none⟩] *
            (0.5 * (1 + Real.exp (Real.log (1 + 1) * 12 / 12)) /
              ((Real.log (1 + 1) * (12 / 12) / 3.14) ^ 2 + 1) - 1)) := by
  obtain ⟨d, hd⟩ : ∃ d, calculate_high_level_capital_costs
      [⟨Acct.num 25, some 1, some 1⟩, ⟨Acct.num 62, none, none⟩] 1 1 12 1 = some d := by
    simp only [calculate_high_level_capital_costs, capital_pass,
      if_neg (show ¬(1000 * (1:ℝ)) = 0 by norm_num)]
    exact ⟨_, rfl⟩
  exact ⟨d, hd, account_62_stores_interest_cost
    [⟨Acct.num 25, some 1, some 1⟩, ⟨Acct.num 62, none, none⟩] d 1 1 12 1 hd⟩

/-! ## `cost_scaling.scale_cost` and `non_standard_cost_scale`

A catalog row as read by the scaling engine, restricted to the fields the
row loop of `scale_cost` uses.  `Option` fields model possibly-`NaN` cells;
the `adj*` fields are the escalated `Adjusted ... ($)` values.  The
Low/High-End bound cells enter only through the Monte-Carlo sampler, which
is modelled by a `Draws` oracle: each `sampler(...)` call returns the
corresponding oracle value, so the bounds themselves do not appear. -/

structure CatRow where
  account : ℚ
  standardEq : Option String
  fixedCost : Option ℝ
  adjFixedCost : ℝ
  fixedCostDist : Option String
  unitCost : Option ℝ
  adjUnitCost : ℝ
  unitCostDist : Option String
  scalingVariable : Option String
  scalingVariableRefValue : Option ℝ
  exponent : Option ℝ
  exponentDist : Option String

/-- The values returned by the three possible `sampler` calls of one row
iteration. -/
structure Draws where
  fixedDraw : ℝ
  unitDraw : ℝ
  expDraw : ℝ

/-- A pandas `cell > 0` comparison: false on `NaN`. -/
noncomputable def pos_cell (o : Option ℝ) : Bool :=
  match o with
  | some x => decide (0 < x)
  | none => false

/-- `scale_cost` lines 93-109: the fixed cost used by the row — the sampler
draw when sampling is on (`Number of Samples > 1`) and a `Lognormal` or
`Uniform` distribution is declared, the nominal adjusted value otherwise,
and `0` when the `Fixed Cost ($)` cell is `NaN`. -/
noncomputable def pick_fixed_cost (row : CatRow) (nSamples : ℕ) (d : Draws) : ℝ :=
  match row.fixedCost with
  | some _ =>
      if 1 < nSamples then
        if row.fixedCostDist = some "Lognormal" then d.fixedDraw
        else if row.fixedCostDist = some "Uniform" then d.fixedDraw
        else row.adjFixedCost
      else row.adjFixedCost
  | none => 0

/-- `scale_cost` lines 111-128: the unit cost used by the row, analogous to
`pick_fixed_cost`. -/
noncomputable def pick_unit_cost (row : CatRow) (nSamples : ℕ) (d : Draws) : ℝ :=
  match row.unitCost with
  | some _ =>
      if 1 < nSamples then
        if row.unitCostDist = some "Lognormal" then d.unitDraw
        else if row.unitCostDist = some "Uniform" then d.unitDraw
        else row.adjUnitCost
      else row.adjUnitCost
  | none => 0

/-- `scale_cost` lines 137-144: the exponent used by the row; `none` when
the `Exponent` cell is `NaN`, in which case the Python name `exponent` is
never bound and any later use raises (`NameError`). -/
noncomputable def pick_exponent (row : CatRow) (nSamples : ℕ) (d : Draws) : Option ℝ :=
  row.exponent.map (fun e0 =>
    if 1 < nSamples then
      if row.exponentDist = some "Truncated Normal" then d.expDraw else e0
    else e0)

/-- `non_standard_cost_scale` (`cost_scaling.py` lines 7-52): the
account-keyed special-case formulas.  `none` models every raising path: a
missing parameter (`KeyError`), a zero divisor (`ZeroDivisionError`), an
enrichment of `0.2` or more (`ValueError`), a `NaN` exponent used in `pow`
(`NameError`), and an account id outside the dispatched set, for which the
Python local `cost` is never assigned (`UnboundLocalError`). -/
noncomputable def non_standard_cost_scale (account : ℚ)
    (unit_cost scaling_variable_value : ℝ) (exponent : Option ℝ)
    (params : String → Option ℝ) : Option ℝ :=
  if account = 222.11 ∨ account = 222.12 then
    match params "Pump Isentropic Efficiency", exponent with
    | some pie, some e =>
        if 1 - pie = 0 then none
        else some ((0.2 / (1 - pie) + 1) * unit_cost * scaling_variable_value ^ e)
    | _, _ => none
  else if account = 222.13 then
    match params "Primary Loop Count" with
    | some _ =>
        match params "Primary Loop Outlet Temperature",
              params "Primary Loop Compressor Power" with
        | some t, some p =>
            some (((t - 273.15) / 650) ^ (1.29 : ℝ) *
              (p / 1000000 / 2.6) ^ (0.74 : ℝ) * unit_cost)
        | _, _ => none
    | none =>
        match params "Compressor Isentropic Efficiency",
              params "Compressor Pressure Ratio", exponent with
        | some cie, some cpr, some e =>
            if 0.95 - cie = 0 then none
            else some (1 / (0.95 - cie) * cpr * Real.log cpr * unit_cost *
              scaling_variable_value ^ e)
        | _, _, _ => none
  else if account = 253 then
    match params "Enrichment", exponent with
    | some en, some e =>
        if en < 0.1 then some (1 * unit_cost * scaling_variable_value ^ e)
        else if en < 0.2 then some (1.15 * unit_cost * scaling_variable_value ^ e)
        else none
    | _, _ => none
  else if account = 711 then
    match params "FTEs Per Onsite Operator Per Year", exponent with
    | some m, some e => some (m * unit_cost * scaling_variable_value ^ e)
    | _, _ => none
  else if account = 712 then
    match params "FTEs Per Offsite Operator (24/7)", exponent with
    | some m, some e =>
        if scaling_variable_value = 0 then none
        else some (m * unit_cost * (1 / scaling_variable_value) ^ e)
    | _, _ => none
  else if account = 713 then
    match params "FTEs Per Security Staff (24/7)", exponent with
    | some m, some e => some (m * unit_cost * scaling_variable_value ^ e)
    | _, _ => none
  else if account = 721 then
    match params "Annual Coolant Supply Frequency" with
    | some m => some (m * unit_cost * scaling_variable_value)
    | none => none
  else if account = 81 then
    match params "FTEs Per Operator Per Year Per Refueling", exponent with
    | some m, some e => some (m * unit_cost * scaling_variable_value ^ e)
    | _, _ => none
  else none

/-- The body of the row loop of `scale_cost` (`cost_scaling.py` lines
85-170): for a row with positive fixed or unit cost data, resolve the
scaling variable (outer `none` models a `KeyError`), then apply the standard
power-law or the nonstandard dispatch; the returned inner option is the
row's new `FOAK Estimated Cost` cell, `some none` meaning the cell was left
unset (`NaN`).  A `Standard Cost Equation?` cell that is neither `standard`
nor `nonstandard` leaves the Python local `estimated_cost` unbound, raising
at the assignment (`NameError`), modelled `none`. -/
noncomputable def scale_cost_row (row : CatRow) (params : String → Option ℝ)
    (nSamples : ℕ) (d : Draws) : Option (Option ℝ) :=
  if pos_cell row.fixedCost || pos_cell row.unitCost then
    match (match row.scalingVariable with
           | some name => params name
           | none => some 0) with
    | none => none
    | some scaling_variable_value =>
      let fixed_cost := pick_fixed_cost row nSamples d
      let unit_cost := pick_unit_cost row nSamples d
      if row.standardEq = some "standard" then
        if row.scalingVariable ≠ none ∧ scaling_variable_value = 0 then
          some (some 0)
        else
          match row.scalingVariableRefValue with
          | some rv =>
              if 0 < rv then
                match pick_exponent row nSamples d with
                | none => none
                | some e => some (some (fixed_cost +
                    unit_cost * scaling_variable_value ^ e / rv ^ (e - 1)))
              else some (some (fixed_cost + unit_cost * scaling_variable_value))
          | none => some (some (fixed_cost + unit_cost * scaling_variable_value))
      else if row.standardEq = some "nonstandard" then
        if row.scalingVariable ≠ none ∧ scaling_variable_value = 0 then
          some (some 0)
        else
          (non_standard_cost_scale row.account unit_cost scaling_variable_value
            (pick_exponent row nSamples d) params).map some
      else none
  else some none

/-- The row loop of `scale_cost`, producing the new `FOAK Estimated Cost`
column cell by cell; the draw oracle is indexed by row position. -/
noncomputable def scale_cost_go (params : String → Option ℝ) (nSamples : ℕ)
    (draws : ℕ → Draws) : ℕ → List CatRow → Option (List (Option ℝ))
  | _, [] => some []
  | i, r :: rs =>
      match scale_cost_row r params nSamples (draws i),
            scale_cost_go params nSamples draws (i + 1) rs with
      | some c, some cs => some (c :: cs)
      | _, _ => none

/-- `scale_cost` (`cost_scaling.py` lines 75-171), restricted to its
computed output: the `FOAK Estimated Cost ($Y)` column, one cell per input
row (the carried-over catalog columns are unchanged copies). -/
noncomputable def scale_cost (df : List CatRow) (params : String → Option ℝ)
    (nSamples : ℕ) (draws : ℕ → Draws) : Option (List (Option ℝ)) :=
  scale_cost_go params nSamples draws 0 df

/-- Position access through the row loop: a successful run maps row `j` to
the result of `scale_cost_row` on that row with its own draw. -/
theorem scale_cost_go_get (params : String → Option ℝ) (nSamples : ℕ)
    (draws : ℕ → Draws) :
    ∀ (l : List CatRow) (i : ℕ) (out : List (Option ℝ)) (j : ℕ) (r : CatRow),
      scale_cost_go params nSamples draws i l = some out →
      l.get? j = some r →
      ∃ c, scale_cost_row r params nSamples (draws (i + j)) = some c ∧
        out.get? j = some c := by
  intro l
  induction l with
  | nil =>
      intro i out j r _ hj
      cases hj
  | cons a as ih =>
      intro i out j r h hj
      unfold scale_cost_go at h
      cases h1 : scale_cost_row a params nSamples (draws i) with
      | none => rw [h1] at h; cases h
      | some c =>
          rw [h1] at h
          cases h2 : scale_cost_go params nSamples draws (i + 1) as with
          | none => rw [h2] at h; cases h
          | some cs =>
              rw [h2] at h
              cases h
              cases j with
              | zero =>
                  cases hj
                  exact ⟨c, by rw [Nat.add_zero]; exact h1, rfl⟩
              | succ j' =>
                  have := ih (i + 1) cs j' r h2 hj
                  rw [Nat.add_assoc, Nat.add_comm 1 j'] at this
                  exact this

/-- Zero-scaling short-circuit of the standard branch (row level):
`estimated_cost = 0` whenever a scaling variable is declared and resolves
to `0`, regardless of the sampled costs and exponent. -/
theorem scale_cost_row_standard_zero (row : CatRow) (params : String → Option ℝ)
    (nSamples : ℕ) (d : Draws) (svName : String)
    (hstd : row.standardEq = some "standard")
    (hpos : pos_cell row.fixedCost = true ∨ pos_cell row.unitCost = true)
    (hsv : row.scalingVariable = some svName)
    (hval : params svName = some 0) :
    scale_cost_row row params nSamples d = some (some 0) := by
  rcases hpos with h | h <;>
    simp [scale_cost_row, hsv, hval, hstd, h]

/-- Zero-scaling short-circuit of the nonstandard branch (row level): the
cost is `0` and `non_standard_cost_scale` is never consulted — the result
holds for every account id and parameter set, including those on which the
dispatch would raise. -/
theorem scale_cost_row_nonstandard_zero (row : CatRow) (params : String → Option ℝ)
    (nSamples : ℕ) (d : Draws) (svName : String)
    (hstd : row.standardEq = some "nonstandard")
    (hpos : pos_cell row.fixedCost = true ∨ pos_cell row.unitCost = true)
    (hsv : row.scalingVariable = some svName)
    (hval : params svName = some 0) :
    scale_cost_row row params nSamples d = some (some 0) := by
  rcases hpos with h | h <;>
    simp [scale_cost_row, hsv, hval, hstd, h]

/-- The algebraic identity behind C7: for a positive reference value and a
nonzero scaling value, `v^e / ref^(e-1) = (v/ref)^e * ref` (real powers). -/
theorem rpow_div_ref (v rv e : ℝ) (hrv : 0 < rv) (hv : v ≠ 0) :
    v ^ e / rv ^ (e - 1) = (v / rv) ^ e * rv := by
  have h1 : rv ^ (e - 1) = rv ^ e / rv := by
    rw [Real.rpow_sub hrv, Real.rpow_one]
  have hrv' : rv ≠ 0 := ne_of_gt hrv
  rcases lt_or_gt_of_ne hv with hneg | hpos
  · have hvr : v / rv < 0 := div_neg_of_neg_of_pos hneg hrv
    rw [h1, Real.rpow_def_of_neg hneg, Real.rpow_def_of_neg hvr,
      Real.rpow_def_of_pos hrv,
      Real.log_div (ne_of_lt hneg) hrv', sub_mul, Real.exp_sub]
    field_simp
  · have hvr : 0 < v / rv := div_pos hpos hrv
    rw [h1, Real.rpow_def_of_pos hpos, Real.rpow_def_of_pos hvr,
      Real.rpow_def_of_pos hrv,
      Real.log_div (ne_of_gt hpos) hrv', sub_mul, Real.exp_sub]
    field_simp

/-- Standard power-law branch with a positive reference value (row level):
the computed cost `fixed + unit * v^e / ref^(e-1)` equals the claim's form
`fixed + unit * (v/ref)^e * ref`. -/
theorem scale_cost_row_ref_form (row : CatRow) (params : String → Option ℝ)
    (nSamples : ℕ) (d : Draws) (svName : String) (v rv e : ℝ)
    (hstd : row.standardEq = some "standard")
    (hpos : pos_cell row.fixedCost = true ∨ pos_cell row.unitCost = true)
    (hsv : row.scalingVariable = some svName)
    (hval : params svName = some v) (hv : v ≠ 0)
    (hrv : row.scalingVariableRefValue = some rv) (hrvpos : 0 < rv)
    (hexp : pick_exponent row nSamples d = some e) :
    scale_cost_row row params nSamples d =
      some (some (pick_fixed_cost row nSamples d +
        pick_unit_cost row nSamples d * (v / rv) ^ e * rv)) := by
  rcases hpos with h | h <;>
  · simp [scale_cost_row, hsv, hval, hstd, hrv, hexp, h, hv, hrvpos]
    rw [mul_div_assoc, rpow_div_ref v rv e hrvpos hv, mul_assoc]

/-- C3: for every catalog row with `Standard Cost Equation?` equal to
`standard`, a positive `Fixed Cost` or `Unit Cost`, and a declared scaling
variable whose value resolved from the design-parameter set is `0`, the
scaling engine assigns that row a FOAK estimated cost of exactly `0`. -/
theorem standard_zero_scaling_gives_zero
    (df : List CatRow) (params : String → Option ℝ) (nSamples : ℕ)
    (draws : ℕ → Draws) (out : List (Option ℝ)) (j : ℕ) (row : CatRow)
    (svName : String)
    (hrun : scale_cost df params nSamples draws = some out)
    (hj : df.get? j = some row)
    (hstd : row.standardEq = some "standard")
    (hpos : pos_cell row.fixedCost = true ∨ pos_cell row.unitCost = true)
    (hsv : row.scalingVariable = some svName)
    (hval : params svName = some 0) :
    out.get? j = some (some 0) := by
  obtain ⟨c, hc, hout⟩ := scale_cost_go_get params nSamples draws df 0 out j row hrun hj
  rw [Nat.zero_add] at hc
  rw [scale_cost_row_standard_zero row params nSamples (draws j) svName
    hstd hpos hsv hval] at hc
  injection hc with hc
  rw [hout, ← hc]

/-- C9: the zero-cost short-circuit equally applies to `nonstandard` rows,
and the account-specific formula is never evaluated: the assigned cost is
`0` for every account id and every parameter set, including those on which
`non_standard_cost_scale` would raise. -/
theorem nonstandard_zero_scaling_gives_zero
    (df : List CatRow) (params : String → Option ℝ) (nSamples : ℕ)
    (draws : ℕ → Draws) (out : List (Option ℝ)) (j : ℕ) (row : CatRow)
    (svName : String)
    (hrun : scale_cost df params nSamples draws = some out)
    (hj : df.get? j = some row)
    (hstd : row.standardEq = some "nonstandard")
    (hpos : pos_cell row.fixedCost = true ∨ pos_cell row.unitCost = true)
    (hsv : row.scalingVariable = some svName)
    (hval : params svName = some 0) :
    out.get? j = some (some 0) := by
  obtain ⟨c, hc, hout⟩ := scale_cost_go_get params nSamples draws df 0 out j row hrun hj
  rw [Nat.zero_add] at hc
  rw [scale_cost_row_nonstandard_zero row params nSamples (draws j) svName
    hstd hpos hsv hval] at hc
  injection hc with hc
  rw [hout, ← hc]

/-- C7: for every standard-equation row with a positive reference value and
nonzero resolved scaling value, the cost computed by the scaling engine (the
code's `fixed + unit * v^e / ref^(e-1)`) equals the spec's form
`fixed + unit * (v/ref)^e * ref`. -/
theorem standard_ref_scaling_forms_agree
    (df : List CatRow) (params : String → Option ℝ) (nSamples : ℕ)
    (draws : ℕ → Draws) (out : List (Option ℝ)) (j : ℕ) (row : CatRow)
    (svName : String) (v rv e : ℝ)
    (hrun : scale_cost df params nSamples draws = some out)
    (hj : df.get? j = some row)
    (hstd : row.standardEq = some "standard")
    (hpos : pos_cell row.fixedCost = true ∨ pos_cell row.unitCost = true)
    (hsv : row.scalingVariable = some svName)
    (hval : params svName = some v) (hv : v ≠ 0)
    (hrv : row.scalingVariableRefValue = some rv) (hrvpos : 0 < rv)
    (hexp : pick_exponent row nSamples (draws j) = some e) :
    out.get? j = some (some (pick_fixed_cost row nSamples (draws j) +
      pick_unit_cost row nSamples (draws j) * (v / rv) ^ e * rv)) := by
  obtain ⟨c, hc, hout⟩ := scale_cost_go_get params nSamples draws df 0 out j row hrun hj
  rw [Nat.zero_add] at hc
  rw [scale_cost_row_ref_form row params nSamples (draws j) svName v rv e
    hstd hpos hsv hval hv hrv hrvpos hexp] at hc
  injection hc with hc
  rw [hout, ← hc]

/-- A concrete `standard` catalog row whose scaling variable resolves to
zero, for the C3 witness. -/
def zero_scaled_standard_row : CatRow :=
  ⟨221.12, some "standard", some 1, 3, none, some 2, 4, none,
   some "Power MWt", none, none, none⟩

/-- Witness for C3: a one-row catalog whose single `standard` row has
`Fixed Cost 1 > 0` and scaling variable `Power MWt` resolving to `0` gets
FOAK cost exactly `0`. -/
theorem standard_zero_scaling_gives_zero_witness :
    ∃ out, scale_cost [zero_scaled_standard_row]
        (fun s => if s = "Power MWt" then some 0 else none) 1
        (fun _ => ⟨0, 0, 0⟩) = some out ∧
      out.get? 0 = some (some 0) := by
  have hpos : pos_cell zero_scaled_standard_row.fixedCost = true :=
    decide_eq_true (by norm_num : (0:ℝ) < 1)
  have hval : (fun s => if s = "Power MWt" then some (0:ℝ) else none) "Power MWt"
      = some 0 := by simp
  have hrow : scale_cost_row zero_scaled_standard_row
      (fun s => if s = "Power MWt" then some 0 else none) 1 ⟨0, 0, 0⟩ = some (some 0) :=
    scale_cost_row_standard_zero _ _ _ _ "Power MWt" rfl (Or.inl hpos) rfl hval
  have hrun : scale_cost [zero_scaled_standard_row]
      (fun s => if s = "Power MWt" then some 0 else none) 1
      (fun _ => ⟨0, 0, 0⟩) = some [some 0] := by
    simp only [scale_cost, scale_cost_go, hrow]
  exact ⟨[some 0], hrun,
    standard_zero_scaling_gives_zero [zero_scaled_standard_row] _ 1 _ [some 0] 0
      zero_scaled_standard_row "Power MWt" hrun rfl rfl (Or.inl hpos) rfl hval⟩

/-- A concrete `nonstandard` catalog row (Account 712, whose dispatch
formula divides by the scaling value and whose FTE parameter is absent from
the parameter set), for the C9 witness. -/
def zero_scaled_nonstandard_row : CatRow :=
  ⟨712, some "nonstandard", some 1, 3, none, some 2, 4, none,
   some "Number Of Operating Reactors", none, some 1, none⟩

/-- Witness for C9: a `nonstandard` Account 712 row with scaling value `0`
gets cost `0` even though evaluating its dispatch formula would both divide
by zero and miss its FTE parameter. -/
theorem nonstandard_zero_scaling_gives_zero_witness :
    ∃ out, scale_cost [zero_scaled_nonstandard_row]
        (fun s => if s = "Number Of Operating Reactors" then some 0 else none) 1
        (fun _ => ⟨0, 0, 0⟩) = some out ∧
      out.get? 0 = some (some 0) := by
  have hpos : pos_cell zero_scaled_nonstandard_row.fixedCost = true :=
    decide_eq_true (by norm_num : (0:ℝ) < 1)
  have hval : (fun s => if s = "Number Of Operating Reactors" then some (0:ℝ) else none)
      "Number Of Operating Reactors" = some 0 := by simp
  have hrow : scale_cost_row zero_scaled_nonstandard_row
      (fun s => if s = "Number Of Operating Reactors" then some 0 else none) 1
      ⟨0, 0, 0⟩ = some (some 0) :=
    scale_cost_row_nonstandard_zero _ _ _ _ "Number Of Operating Reactors"
      rfl (Or.inl hpos) rfl hval
  have hrun : scale_cost [zero_scaled_nonstandard_row]
      (fun s => if s = "Number Of Operating Reactors" then some 0 else none) 1
      (fun _ => ⟨0, 0, 0⟩) = some [some 0] := by
    simp only [scale_cost, scale_cost_go, hrow]
  exact ⟨[some 0], hrun,
    nonstandard_zero_scaling_gives_zero [zero_scaled_nonstandard_row] _ 1 _ [some 0] 0
      zero_scaled_nonstandard_row "Number Of Operating Reactors" hrun rfl rfl
      (Or.inl hpos) rfl hval⟩

/-- A concrete `standard` catalog row with reference value `1`, exponent `3`
and scaling variable resolving to `2`, for the C7 witness. -/
def ref_scaled_standard_row : CatRow :=
  ⟨221.12, some "standard", some 1, 3, none, some 2, 4, none,
   some "Power MWt", some 1, some 3, none⟩

/-- Witness for C7 at the concrete row above: the engine's output cell is
the spec-form cost `fixed + unit * (2/1)^3 * 1`. -/
theorem standard_ref_scaling_forms_agree_witness :
    ∃ out, scale_cost [ref_scaled_standard_row]
        (fun s => if s = "Power MWt" then some 2 else none) 1
        (fun _ => ⟨0, 0, 0⟩) = some out ∧
      out.get? 0 = some (some (pick_fixed_cost ref_scaled_standard_row 1 ⟨0, 0, 0⟩ +
        pick_unit_cost ref_scaled_standard_row 1 ⟨0, 0, 0⟩ *
          ((2:ℝ) / 1) ^ (3:ℝ) * 1)) := by
  have hpos : pos_cell ref_scaled_standard_row.fixedCost = true :=
    decide_eq_true (by norm_num : (0:ℝ) < 1)
  have hval : (fun s => if s = "Power MWt" then some (2:ℝ) else none) "Power MWt"
      = some 2 := by simp
  have hexp : pick_exponent ref_scaled_standard_row 1 ⟨0, 0, 0⟩ = some 3 := rfl
  have hrow : scale_cost_row ref_scaled_standard_row
      (fun s => if s = "Power MWt" then some 2 else none) 1 ⟨0, 0, 0⟩ =
      some (some (pick_fixed_cost ref_scaled_standard_row 1 ⟨0, 0, 0⟩ +
        pick_unit_cost ref_scaled_standard_row 1 ⟨0, 0, 0⟩ *
          ((2:ℝ) / 1) ^ (3:ℝ) * 1)) :=
    scale_cost_row_ref_form _ _ _ _ "Power MWt" 2 1 3 rfl (Or.inl hpos) rfl hval
      (by norm_num) rfl (by norm_num) hexp
  have hrun : scale_cost [ref_scaled_standard_row]
      (fun s => if s = "Power MWt" then some 2 else none) 1
      (fun _ => ⟨0, 0, 0⟩) = some [some (pick_fixed_cost ref_scaled_standard_row 1 ⟨0, 0, 0⟩ +
        pick_unit_cost ref_scaled_standard_row 1 ⟨0, 0, 0⟩ *
          ((2:ℝ) / 1) ^ (3:ℝ) * 1)] := by
    simp only [scale_cost, scale_cost_go, hrow]
  exact ⟨_, hrun,
    standard_ref_scaling_forms_agree [ref_scaled_standard_row] _ 1 _ _ 0
      ref_scaled_standard_row "Power MWt" 2 1 3 hrun rfl rfl (Or.inl hpos) rfl hval
      (by norm_num) rfl (by norm_num) hexp⟩

/-! ## Account-tree rollup (`cost_estimation.calculate_high_level_accounts_cost`)

A cost-table row as the rollup sees it: the account id (the string
`str(row['Account'])`, whose float repr round-trips, so numeric equality of
`float(account)` with the `Account` column is string equality of the stored
ids), the `Level` cell (`NaN` on synthesized rows), one estimated-cost cell
(the function is applied to one cost column at a time, FOAK or NOAK), and
the `Children Accounts` cell (a split comma-joined list, `NaN` when
absent). -/

structure RollRow where
  account : String
  level : Option Int
  cost : Option ℚ
  children : Option (List String)
deriving DecidableEq, Repr

/-- Lines 18-27: the account-prefix groups; an invalid option raises
`ValueError`. -/
def validPrefixes : String → Option (List Char)
  | "base" => some ['1', '2']
  | "other" => some ['3', '4', '5']
  | "finance" => some ['6']
  | "annual" => some ['7', '8']
  | _ => none

/-- `str(row["Account"]).startswith(valid_prefixes)` for single-character
prefixes: the first character is one of them. -/
def startsWithAny (a : String) (ps : List Char) : Bool :=
  match a.data with
  | [] => false
  | c :: _ => ps.contains c

/-- `df[df["Account"] == float(account)]...values[0]`: the first row whose
account id matches. -/
def lookupAcct (df : List RollRow) (a : String) : Option RollRow :=
  df.find? (fun r => r.account == a)

/-- The `total_sum` loop (lines 35-38): look every listed child up in the
table and add its cost cell.  The outer `none` models the `IndexError`
raised when a listed child is missing; the inner `none` the `NaN` produced
when any child's cost cell is `NaN`. -/
def childrenSum (df : List RollRow) : List String → Option (Option ℚ)
  | [] => some (some 0)
  | a :: rest =>
      match lookupAcct df a with
      | none => none
      | some r =>
          match childrenSum df rest with
          | none => none
          | some none => some none
          | some (some s) =>
              match r.cost with
              | none => some none
              | some c => some (some (c + s))

/-- The `iterrows` loop of `calculate_high_level_accounts_cost` (lines
29-39): visit the rows in order; when an in-group row at the target level
has an empty cost cell and a non-empty children list, write the children
sum (computed against the current, partially updated table) into its cost
cell.  The remaining-iteration count `n` drives the recursion; `i` is the
current position. -/
def rollLoop (ps : List Char) (tl : Int) : ℕ → ℕ → List RollRow → Option (List RollRow)
  | 0, _, df => some df
  | n + 1, i, df =>
      match df.get? i with
      | none => rollLoop ps tl n (i + 1) df
      | some r =>
          if startsWithAny r.account ps ∧ r.level = some tl ∧ r.cost = none then
            match r.children with
            | none => rollLoop ps tl n (i + 1) df
            | some cs =>
                match childrenSum df cs with
                | none => none
                | some s => rollLoop ps tl n (i + 1) (df.set i { r with cost := s })
          else rollLoop ps tl n (i + 1) df

/-- `calculate_high_level_accounts_cost` (`cost_estimation.py` lines 14-41)
for one cost column. -/
def calculate_high_level_accounts_cost (df : List RollRow) (target_level : Int)
    (opt : String) : Option (List RollRow) :=
  match validPrefixes opt with
  | some ps => rollLoop ps target_level df.length 0 df
  | none => none

/-- The tree-shape side condition under which the claim is stated: every
child listed by an updatable row resolves to a row at a different level
than the target (`find_children_accounts` only ever lists rows at the
parent's level plus one). -/
def children_level_ok (tl : Int) (ps : List Char) (df : List RollRow) : Bool :=
  df.all (fun r =>
    if startsWithAny r.account ps ∧ r.level = some tl ∧ r.cost = none then
      match r.children with
      | some cs => cs.all (fun a =>
          match lookupAcct df a with
          | some rc => !(rc.level == some tl)
          | none => true)
      | none => true
    else true)

/-- Two rows agreeing on everything except possibly the cost cell. -/
def SameShape (r s : RollRow) : Prop :=
  s.account = r.account ∧ s.level = r.level ∧ s.children = r.children

/-- How one rollup pass may change the table: row for row, only cost cells
change, and only in rows whose level is the target level. -/
def Evolves (tl : Int) (d1 d2 : List RollRow) : Prop :=
  List.Forall₂ (fun r s => SameShape r s ∧ (r.level ≠ some tl → s = r)) d1 d2

theorem evolves_refl (tl : Int) (d : List RollRow) : Evolves tl d d := by
  rw [Evolves, List.forall₂_same]
  intro x _
  exact ⟨⟨rfl, rfl, rfl⟩, fun _ => rfl⟩

theorem evolves_trans (tl : Int) (d1 d2 d3 : List RollRow)
    (h12 : Evolves tl d1 d2) (h23 : Evolves tl d2 d3) : Evolves tl d1 d3 := by
  induction h12 generalizing d3 with
  | nil =>
      cases h23
      exact List.Forall₂.nil
  | @cons r s l1 l2 hrs _ ih =>
      cases h23 with
      | cons hst htc =>
          refine List.Forall₂.cons ⟨⟨?_, ?_, ?_⟩, ?_⟩ (ih _ htc)
          · exact hst.1.1.trans hrs.1.1
          · exact hst.1.2.1.trans hrs.1.2.1
          · exact hst.1.2.2.trans hrs.1.2.2
          · intro hne
            have h2eq := hrs.2 hne
            have hsl : s.level ≠ some tl := by rw [h2eq]; exact hne
            rw [hst.2 hsl, h2eq]

theorem evolves_set (tl : Int) (df : List RollRow) (i : ℕ) (r : RollRow) (s : Option ℚ)
    (hi : df.get? i = some r) (hlvl : r.level = some tl) :
    Evolves tl df (df.set i { r with cost := s }) := by
  induction df generalizing i with
  | nil => cases hi
  | cons a as ih =>
      cases i with
      | zero =>
          injection hi with hi
          subst hi
          exact List.Forall₂.cons ⟨⟨rfl, rfl, rfl⟩, fun hne => (hne hlvl).elim⟩
            (evolves_refl tl as)
      | succ i' =>
          exact List.Forall₂.cons ⟨⟨rfl, rfl, rfl⟩, fun _ => rfl⟩ (ih i' hi)

theorem rollLoop_evolves (ps : List Char) (tl : Int) :
    ∀ n i df df', rollLoop ps tl n i df = some df' → Evolves tl df df' := by
  intro n
  induction n with
  | zero =>
      intro i df df' h
      cases h
      exact evolves_refl tl df
  | succ n ih =>
      intro i df df' h
      unfold rollLoop at h
      cases hg : df.get? i with
      | none =>
          rw [hg] at h
          exact ih _ _ _ h
      | some r =>
          rw [hg] at h
          dsimp only at h
          by_cases hcond : startsWithAny r.account ps ∧ r.level = some tl ∧ r.cost = none
          · rw [if_pos hcond] at h
            cases hch : r.children with
            | none =>
                rw [hch] at h
                exact ih _ _ _ h
            | some cs =>
                rw [hch] at h
                dsimp only at h
                cases hcs : childrenSum df cs with
                | none => rw [hcs] at h; cases h
                | some s =>
                    rw [hcs] at h
                    dsimp only at h
                    rw [show (⟨r.account, r.level, s, some cs⟩ : RollRow) =
                      { r with cost := s } from by rw [← hch]] at h
                    exact evolves_trans tl _ _ _
                      (evolves_set tl df i r s hg hcond.2.1) (ih _ _ _ h)
          · rw [if_neg hcond] at h
            exact ih _ _ _ h

theorem rollLoop_frozen (ps : List Char) (tl : Int) :
    ∀ n i df df', rollLoop ps tl n i df = some df' →
      ∀ j, j < i → df'.get? j = df.get? j := by
  intro n
  induction n with
  | zero =>
      intro i df df' h j _
      cases h
      rfl
  | succ n ih =>
      intro i df df' h j hj
      unfold rollLoop at h
      cases hg : df.get? i with
      | none =>
          rw [hg] at h
          exact ih _ _ _ h j (Nat.lt_succ_of_lt hj)
      | some r =>
          rw [hg] at h
          dsimp only at h
          by_cases hcond : startsWithAny r.account ps ∧ r.level = some tl ∧ r.cost = none
          · rw [if_pos hcond] at h
            cases hch : r.children with
            | none =>
                rw [hch] at h
                exact ih _ _ _ h j (Nat.lt_succ_of_lt hj)
            | some cs =>
                rw [hch] at h
                dsimp only at h
                cases hcs : childrenSum df cs with
                | none => rw [hcs] at h; cases h
                | some s =>
                    rw [hcs] at h
                    rw [ih _ _ _ h j (Nat.lt_succ_of_lt hj)]
                    exact List.get?_set_ne _ _ (Nat.ne_of_gt hj)
          · rw [if_neg hcond] at h
            exact ih _ _ _ h j (Nat.lt_succ_of_lt hj)

/-- Under `Evolves`, account lookups land on the same position: either both
tables miss the account, or both find rows of the same shape, identical
whenever the found row is off the target level. -/
theorem lookup_evolves (tl : Int) (d1 d2 : List RollRow) (h : Evolves tl d1 d2)
    (a : String) :
    (lookupAcct d1 a = none ∧ lookupAcct d2 a = none) ∨
    (∃ r s, lookupAcct d1 a = some r ∧ lookupAcct d2 a = some s ∧ SameShape r s ∧
      (r.level ≠ some tl → s = r)) := by
  induction h with
  | nil => exact Or.inl ⟨rfl, rfl⟩
  | @cons r s l1 l2 hrs _ ih =>
      by_cases hacc : r.account = a
      · have hs : s.account = a := hrs.1.1.trans hacc
        right
        refine ⟨r, s, ?_, ?_, hrs.1, hrs.2⟩
        · exact List.find?_cons_of_pos _ (by simp [hacc])
        · exact List.find?_cons_of_pos _ (by simp [hs])
      · have hs : ¬ s.account = a := fun hc => hacc (hrs.1.1.symm.trans hc)
        have e1 : lookupAcct (r :: l1) a = lookupAcct l1 a :=
          List.find?_cons_of_neg _ (by simp [hacc])
        have e2 : lookupAcct (s :: l2) a = lookupAcct l2 a :=
          List.find?_cons_of_neg _ (by simp [hs])
        rw [e1, e2]
        exact ih

/-- Under `Evolves`, the children sum is unchanged as long as every listed
child resolves off the target level. -/
theorem childrenSum_evolves (tl : Int) (d1 d2 : List RollRow)
    (h : Evolves tl d1 d2) :
    ∀ cs : List String,
      (∀ a ∈ cs, ∀ rc, lookupAcct d1 a = some rc → rc.level ≠ some tl) →
      childrenSum d2 cs = childrenSum d1 cs := by
  intro cs
  induction cs with
  | nil => intro _; rfl
  | cons a rest ih =>
      intro hok
      unfold childrenSum
      rcases lookup_evolves tl d1 d2 h a with ⟨h1, h2⟩ | ⟨r, s, h1, h2, _, hlv⟩
      · rw [h1, h2]
      · have hsr : s = r := hlv (hok a (by simp) r h1)
        rw [h1, h2, hsr, ih (fun a' ha' => hok a' (List.mem_cons_of_mem a ha'))]

/-- Transport of the child-level side condition for one children list along
`Evolves`. -/
theorem childOk_evolves (tl : Int) (d1 d2 : List RollRow) (h : Evolves tl d1 d2)
    (cs : List String)
    (hok : ∀ a ∈ cs, ∀ rc, lookupAcct d1 a = some rc → rc.level ≠ some tl) :
    ∀ a ∈ cs, ∀ rc, lookupAcct d2 a = some rc → rc.level ≠ some tl := by
  intro a ha rc h2
  rcases lookup_evolves tl d1 d2 h a with ⟨_, e2⟩ | ⟨r, s, e1, e2, hsh, _⟩
  · rw [e2] at h2
    cases h2
  · rw [e2] at h2
    injection h2 with h2
    subst h2
    rw [hsh.2.1]
    exact hok a ha r e1

/-- The propositional form of the tree-shape side condition. -/
def RollOk (tl : Int) (ps : List Char) (df : List RollRow) : Prop :=
  ∀ j r cs, df.get? j = some r → startsWithAny r.account ps = true →
    r.level = some tl → r.cost = none → r.children = some cs →
    ∀ a ∈ cs, ∀ rc, lookupAcct df a = some rc → rc.level ≠ some tl

theorem children_level_ok_spec (tl : Int) (ps : List Char) (df : List RollRow)
    (h : children_level_ok tl ps df = true) : RollOk tl ps df := by
  intro j r cs hj hsw hlv hco hch a ha rc hrc
  have hr := List.get?_mem hj
  have := (List.all_eq_true.mp h) r hr
  rw [if_pos ⟨hsw, hlv, hco⟩, hch] at this
  have ha' := (List.all_eq_true.mp this) a ha
  rw [hrc] at ha'
  simpa using ha'

/-- The tree-shape side condition survives one cost-cell write at the
target level. -/
theorem rollOk_set (tl : Int) (ps : List Char) (df : List RollRow) (i : ℕ)
    (r : RollRow) (s : Option ℚ)
    (hi : df.get? i = some r) (hlvl : r.level = some tl) (hrc : r.cost = none)
    (hok : RollOk tl ps df) :
    RollOk tl ps (df.set i { r with cost := s }) := by
  have hev : Evolves tl df (df.set i { r with cost := s }) :=
    evolves_set tl df i r s hi hlvl
  intro j rj cs hj hsw hlv hco hch
  by_cases hji : j = i
  · subst hji
    have hilen : j < df.length := (List.get?_eq_some.mp hi).choose
    rw [List.get?_set_eq_of_lt _ hilen] at hj
    injection hj with hj
    subst hj
    exact childOk_evolves tl df _ hev cs (hok j r cs hi hsw hlvl hrc hch)
  · rw [List.get?_set_ne _ _ (fun hc => hji hc.symm)] at hj
    exact childOk_evolves tl df _ hev cs (hok j rj cs hj hsw hlv hco hch)

/-- Main induction: after a successful loop run over positions `i ≤ j < i+n`,
every visited row that qualified holds the sum of its children's costs,
read off the final table. -/
theorem rollLoop_main (ps : List Char) (tl : Int) :
    ∀ n i df df', rollLoop ps tl n i df = some df' → RollOk tl ps df →
      ∀ j r cs, i ≤ j → j < i + n → df.get? j = some r →
        startsWithAny r.account ps = true → r.level = some tl → r.cost = none →
        r.children = some cs →
        ∃ s, childrenSum df' cs = some s ∧ df'.get? j = some { r with cost := s } := by
  intro n
  induction n with
  | zero =>
      intro i df df' _ _ j r cs hij hjn
      omega
  | succ n ih =>
      intro i df df' h hok j r cs hij hjn hj hsw hlv hco hch
      unfold rollLoop at h
      cases hg : df.get? i with
      | none =>
          rw [hg] at h
          have hlen : df.length ≤ i := List.get?_eq_none.mp hg
          have : df.get? j = none := List.get?_eq_none.mpr (le_trans hlen hij)
          rw [this] at hj
          cases hj
      | some ri =>
          rw [hg] at h
          dsimp only at h
          by_cases hcond : startsWithAny ri.account ps ∧ ri.level = some tl ∧ ri.cost = none
          · rw [if_pos hcond] at h
            cases hchi : ri.children with
            | none =>
                rw [hchi] at h
                by_cases hji : j = i
                · subst hji
                  rw [hg] at hj
                  injection hj with hj
                  subst hj
                  rw [hchi] at hch
                  cases hch
                · exact ih (i + 1) df df' h hok j r cs (by omega) (by omega)
                    hj hsw hlv hco hch
            | some cs0 =>
                rw [hchi] at h
                dsimp only at h
                cases hcs : childrenSum df cs0 with
                | none => rw [hcs] at h; cases h
                | some s0 =>
                    rw [hcs] at h
                    dsimp only at h
                    rw [show (⟨ri.account, ri.level, s0, some cs0⟩ : RollRow) =
                      { ri with cost := s0 } from by rw [← hchi]] at h
                    have hev2 : Evolves tl df (df.set i { ri with cost := s0 }) :=
                      evolves_set tl df i ri s0 hg hcond.2.1
                    have hok2 : RollOk tl ps (df.set i { ri with cost := s0 }) :=
                      rollOk_set tl ps df i ri s0 hg hcond.2.1 hcond.2.2 hok
                    by_cases hji : j = i
                    · subst hji
                      rw [hg] at hj
                      injection hj with hj
                      subst hj
                      rw [hchi] at hch
                      injection hch with hch
                      subst hch
                      refine ⟨s0, ?_, ?_⟩
                      · have hevF : Evolves tl (df.set j { ri with cost := s0 }) df' :=
                          rollLoop_evolves ps tl n (j + 1) _ df' h
                        have hokc : ∀ a ∈ cs0, ∀ rc, lookupAcct df a = some rc →
                            rc.level ≠ some tl :=
                          hok j ri cs0 hg hcond.1 hcond.2.1 hcond.2.2 hchi
                        rw [childrenSum_evolves tl _ df' hevF cs0
                          (childOk_evolves tl df _ hev2 cs0 hokc)]
                        rw [childrenSum_evolves tl df _ hev2 cs0 hokc]
                        exact hcs
                      · have hfr : df'.get? j = (df.set j { ri with cost := s0 }).get? j :=
                          rollLoop_frozen ps tl n (j + 1) _ df' h j (Nat.lt_succ_self j)
                        rw [hfr]
                        exact List.get?_set_eq_of_lt _ ((List.get?_eq_some.mp hg).choose)
                    · have hj2 : (df.set i { ri with cost := s0 }).get? j = some r := by
                        rw [List.get?_set_ne _ _ (fun hc => hji hc.symm)]
                        exact hj
                      exact ih (i + 1) _ df' h hok2 j r cs (by omega) (by omega)
                        hj2 hsw hlv hco hch
          · rw [if_neg hcond] at h
            by_cases hji : j = i
            · subst hji
              rw [hg] at hj
              injection hj with hj
              subst hj
              exact absurd ⟨hsw, hlv, hco⟩ hcond
            · exact ih (i + 1) df df' h hok j r cs (by omega) (by omega)
                hj hsw hlv hco hch

/-- C1: after `calculate_high_level_accounts_cost` finishes for a group and
a level, every in-group row at that level whose cost cell was empty and
whose `Children Accounts` list is present holds a cost cell equal to the
(`NaN`-propagating) sum of the cost column over exactly the rows whose
account ids appear in its children list, looked up in the resulting table —
under the tree-shape condition that listed children resolve to rows off the
target level, as `find_children_accounts` guarantees (children sit at level
target+1).  This covers both cost columns (the function is applied per
column) and all four groups via `validPrefixes`. -/
theorem rollup_parent_holds_children_sum
    (df df' : List RollRow) (tl : Int) (opt : String) (ps : List Char)
    (hps : validPrefixes opt = some ps)
    (hrun : calculate_high_level_accounts_cost df tl opt = some df')
    (htree : children_level_ok tl ps df = true) :
    ∀ j r cs, df.get? j = some r → startsWithAny r.account ps = true →
      r.level = some tl → r.cost = none → r.children = some cs →
      ∃ s, childrenSum df' cs = some s ∧ df'.get? j = some { r with cost := s } := by
  unfold calculate_high_level_accounts_cost at hrun
  rw [hps] at hrun
  dsimp only at hrun
  intro j r cs hj hsw hlv hco hch
  have hjlen : j < df.length := (List.get?_eq_some.mp hj).choose
  exact rollLoop_main ps tl df.length 0 df df' hrun
    (children_level_ok_spec tl ps df htree) j r cs (Nat.zero_le j) (by omega)
    hj hsw hlv hco hch

/-- A concrete three-row pre-order table for the C1 witness: a level-1
parent account `21` with an empty cost cell listing children `221` and
`222`, which carry costs `5` and `7`. -/
def roll_parent_row : RollRow := ⟨"21", some 1, none, some ["221", "222"]⟩

def roll_table : List RollRow :=
  [roll_parent_row, ⟨"221", some 2, some 5, none⟩, ⟨"222", some 2, some 7, none⟩]

/-- Witness for C1 at the concrete table above, rolled up for group `base`
at level `1`: the parent's cell afterwards holds the children sum. -/
theorem rollup_parent_holds_children_sum_witness :
    ∃ df', calculate_high_level_accounts_cost roll_table 1 "base" = some df' ∧
      ∃ s, childrenSum df' ["221", "222"] = some s ∧
        df'.get? 0 = some { roll_parent_row with cost := s } := by
  refine ⟨_, rfl, ?_⟩
  exact rollup_parent_holds_children_sum roll_table _ 1 "base" ['1', '2'] rfl rfl
    (by decide) 0 roll_parent_row ["221", "222"] rfl rfl rfl rfl rfl
